import Mathlib

/-!
Verification of the `@thirdact/simple-mongoose-interface` protocol-translation
layer: a shallow embedding, in Lean, of the REST protocol adapter
(`RESTInterfaceHandler`), the RPC protocol adapter (`RPCInterface`), and the
operation/error model they share, together with theorems about the embedded
definitions.

Conventions of the embedding:
* JavaScript objects that cross the adapter boundary are modelled by the
  JSON-like type `JSVal`; `Buffer`s by `List Nat` (the byte list); machine
  numbers by `Int`/`Nat`.
* External collaborators (the codec, the store, the dispatcher when a theorem
  does not depend on its internals) are taken as function parameters.
* JavaScript truthiness is translated point-wise at each use site; every such
  translation is noted in a comment at the definition it affects.
-/

/-- The operation vocabulary (`ModelInterfaceRequestMethods` of
`ModelInterface.ts`).  In the source this is a TypeScript string enum: each
member's value is its own (non-empty) name, which is why every member is
truthy in JavaScript.  -/
inductive ModelInterfaceRequestMethods where
  | find
  | findOne
  | findById
  | count
  | create
  | update
  | patch
  | delete
deriving DecidableEq, Repr

/-- A JSON-like JavaScript value, as the adapters pass them around (request
bodies, deserialized buffers, query-string values). -/
inductive JSVal where
  | null
  | bool (b : Bool)
  | num (n : Int)
  | str (s : String)
  | arr (xs : List JSVal)
  | obj (fields : List (String × JSVal))

/-- Lookup in an association list (JavaScript object field access /
`Map.prototype.get`): the first binding of the key, if any. -/
def assocGet {κ α : Type} [DecidableEq κ] : List (κ × α) → κ → Option α
  | [], _ => none
  | (k, v) :: rest, key => if k = key then some v else assocGet rest key

/-- Update in an association list (JavaScript property assignment /
`Map.prototype.set`): replace the first binding of the key in place, or
append a new binding at the end. -/
def assocSet {κ α : Type} [DecidableEq κ] : List (κ × α) → κ → α → List (κ × α)
  | [], key, v => [(key, v)]
  | (k, w) :: rest, key, v =>
    if k = key then (k, v) :: rest else (k, w) :: assocSet rest key v

/-- lodash `_.set(objectValue, path, newValue)` for a dot-separated path that
has already been split into segments.  Missing or non-object intermediate
values are replaced by fresh empty objects; a non-object root is returned
unchanged (lodash's `isObject` guard).  The source only uses alphanumeric
dot-paths, so the bracket/array forms of lodash paths are not modelled. -/
def setPath (v : JSVal) : List String → JSVal → JSVal
  | [], _ => v
  | [k], nv =>
    match v with
    | .obj fs => .obj (assocSet fs k nv)
    | _ => v
  | k :: k2 :: rest, nv =>
    match v with
    | .obj fs =>
      let child : JSVal :=
        match assocGet fs k with
        | some (JSVal.obj cfs) => JSVal.obj cfs
        | _ => JSVal.obj []
      .obj (assocSet fs k (setPath child (k2 :: rest) nv))
    | _ => v

/-- Read a dot-path out of a `JSVal` (lodash `_.get`). -/
def getPath : JSVal → List String → Option JSVal
  | v, [] => some v
  | .obj fs, k :: rest =>
    match assocGet fs k with
    | some child => getPath child rest
    | none => none
  | _, _ :: _ => none

/-- JavaScript object spread `{...a, ...b}` on the field lists of two
objects: `a`'s keys in order with `b`'s values where `b` also binds the key,
then `b`'s remaining keys. -/
def spreadFields (fsa fsb : List (String × JSVal)) : List (String × JSVal) :=
  fsa.map (fun p =>
    match assocGet fsb p.1 with
    | some v => (p.1, v)
    | none => p)
  ++ fsb.filter (fun p => (assocGet fsa p.1).isNone)

/-- `{...a, ...b}` where `b` is known to be an object; spreading a non-object
`a` contributes no fields, as in JavaScript. -/
def spreadTop (a : JSVal) (fsb : List (String × JSVal)) : JSVal :=
  match a with
  | .obj fsa => .obj (spreadFields fsa fsb)
  | _ => .obj (spreadFields [] fsb)

/-- Insertion-ordered deduplication, the behaviour of iterating a JavaScript
`Set` built from a list: keep the first occurrence of each element. -/
def jsSetDedupAux (seen : List String) : List String → List String
  | [] => []
  | x :: xs =>
    if x ∈ seen then jsSetDedupAux seen xs
    else x :: jsSetDedupAux (x :: seen) xs

/-- `Array.from(new Set(l).values())`. -/
def jsSetDedup (l : List String) : List String :=
  jsSetDedupAux [] l

/-- The value of one entry of an `HTTPError`'s optional `headers` map:
`string | string[] | undefined`. -/
inductive HeaderVal where
  | one (s : String)
  | many (l : List String)
  | undef
deriving DecidableEq

/-- A JavaScript error object as this layer sees one.  Errors are duck-typed
in the source: any object with a `message` and possibly `httpCode`,
`headers`, `stack`, an `innerError` and the `isModelInterfaceError` sentinel
field (the symbol `IsModelInterfaceError`, truthy exactly when present, here
a `Bool`).  `innerError` is recursive because `wrapError` stores the whole
original error there. -/
inductive JSError where
  | mk (message : String) (stack : Option String) (httpCode : Option Nat)
      (headers : List (String × HeaderVal)) (isModelInterfaceError : Bool)
      (innerError : Option JSError)

def JSError.message : JSError → String
  | .mk m _ _ _ _ _ => m

def JSError.stack : JSError → Option String
  | .mk _ s _ _ _ _ => s

def JSError.httpCode : JSError → Option Nat
  | .mk _ _ c _ _ _ => c

def JSError.headers : JSError → List (String × HeaderVal)
  | .mk _ _ _ h _ _ => h

def JSError.isModelInterfaceError : JSError → Bool
  | .mk _ _ _ _ b _ => b

def JSError.innerError : JSError → Option JSError
  | .mk _ _ _ _ _ i => i

/-- Modelled from the spec: `ModelInterface.ts` is not among the repository
files staged under `src/` (only its tests and its importers are), so
`ModelInterface.wrapError` is reconstructed from spec §4.1 — "if `err`
already carries the wrapped-error sentinel, return unchanged; otherwise
produce a new Wrapped Error whose `innerError` is the original error and
whose `message`/`stack` are copied through" — and from the behaviour its
unit tests assert (part_001, `wrapError()` describe block). -/
def wrapError (e : JSError) : JSError :=
  if e.isModelInterfaceError then e
  else .mk e.message e.stack none [] true (some e)

/-- `Invalid HTTP method` error of `RESTInterfaceHandler` (it implements
`HTTPError` and sets `isModelInterfaceError = IsModelInterfaceError`). -/
def InvalidHTTPMethodError (method : String) : JSError :=
  .mk ("Invalid HTTP method " ++ method) none none [] true none

/-- `OperationToHTTPMethod`, the map of operations to HTTP methods, as the
ordered list of its entries (all eight keys are distinct, so first-match
lookup agrees with `Map.prototype.get`). -/
def OperationToHTTPMethodEntries :
    List (ModelInterfaceRequestMethods × String) :=
  [ (.create, "POST"), (.update, "PUT"), (.delete, "DELETE"),
    (.find, "GET"), (.findById, "GET"), (.count, "HEAD"),
    (.findOne, "GET"), (.patch, "PATCH") ]

/-- `OperationToHTTPMethod.get(m)`; every operation is a key of the map, and
JavaScript would render a missing value as the string `undefined`. -/
def operationToHTTPMethodGet (m : ModelInterfaceRequestMethods) : String :=
  (assocGet OperationToHTTPMethodEntries m).getD "undefined"

/-- The reverse map built inside `RESTInterfaceHandler.execute`:
`new Map(Array.from(OperationToHTTPMethod.entries()).map(([k, v]) => [v, k]))`.
A JavaScript `Map` constructor keeps the *last* entry for a repeated key
(the three GET operations collapse onto `findOne`), modelled by inserting
the swapped entries in order with `assocSet`. -/
def httpMethodToOperation (verb : String) :
    Option ModelInterfaceRequestMethods :=
  assocGet
    (OperationToHTTPMethodEntries.foldl
      (fun m p => assocSet m p.2 p.1) []) verb

/-- `HTTPMethodNotAllowedError`: message built with the operation→verb map
(the source's message reads "now allowed", a typo kept as is), `httpCode`
405, and — when an allowed list was supplied — an `Allow` header holding the
deduplicated verbs of the allowed operations joined with spaces. -/
def HTTPMethodNotAllowedError (method : ModelInterfaceRequestMethods)
    (allowedMethods : Option (List ModelInterfaceRequestMethods)) : JSError :=
  .mk ("HTTP method " ++ operationToHTTPMethodGet method ++ " now allowed")
    none (some 405)
    (match allowedMethods with
     | some l =>
       [("Allow", .one (String.intercalate " "
         (jsSetDedup (l.map operationToHTTPMethodGet))))]
     | none => [])
    true none

/-- `RESTInterfaceParserOptions`: every field optional, as in the source. -/
structure RESTInterfaceParserOptions where
  skipParseBody : Option Bool := none
  upsert : Option Bool := none
  allowedMethods : Option (List ModelInterfaceRequestMethods) := none
  lastModifiedField : Option String := none

/-- An inbound HTTP request as `interfaceRequestFromHttpRequest` consumes
one.  `rawPath` is `parsedUrl.href.replace(urlBase, '')`, the remainder of
the resolved URL after the configured base (it still carries any query
string or fragment — the source strips those when extracting the target id).
`attachedBody` is `req.body` when some middleware already attached a
`Buffer`; `streamBody` is the buffer `getRawBody(req, …)` would produce if
the stream were read.  `queryArgs` is `qs.parse(parsedUrl.search,
queryStringOptions)` — the query string's key/value pairs, with the
booleans/numbers coercion already applied by the external `query-string`
library.  `contentTypeFormat` is the serialization format
`headerToSerializationFormat(req, 'content-type')` extracts. -/
structure HttpRequestModel where
  method : String
  rawPath : String
  attachedBody : Option (List Nat) := none
  streamBody : List Nat := []
  queryArgs : List (String × JSVal) := []
  contentTypeFormat : String := "json"

/-- JavaScript `String.prototype.split(sep)` on a list of characters, for a
one-character separator: `""` splits to `[""]`, and a trailing separator
yields a trailing empty piece, as in JavaScript.  (Lean's own
`String.splitOn` is defined by well-founded recursion, which the kernel
cannot evaluate; this structural equivalent keeps witnesses computable.) -/
def splitChar (sep : Char) : List Char → List (List Char)
  | [] => [[]]
  | c :: rest =>
    if c = sep then [] :: splitChar sep rest
    else
      match splitChar sep rest with
      | h :: t => (c :: h) :: t
      | [] => [[c]]

/-- `pathname.substr(1).split('?').shift().split('#').shift()`: the path
remainder without its leading slash, truncated at the first `?` and the
first `#` — `split(sep).shift()` is exactly the prefix before the first
separator, i.e. `takeWhile (· ≠ sep)`. -/
def targetIdOf (rawPath : String) : String :=
  String.mk (((rawPath.data.drop 1).takeWhile (fun c => c ≠ '?')).takeWhile
    (fun c => c ≠ '#'))

/-- The lodash path `` `query.${key}` `` splits on dots; `dotPath key` is
`key.split('.')` (never empty: JavaScript's split of any string yields at
least one piece, which `splitChar` guarantees structurally). -/
def dotPath (k : String) : List String :=
  (splitChar '.' k.data).map String.mk

/-- The verb→operation resolution of `interfaceRequestFromHttpRequest`
(lines 218–234 of the handler): a JavaScript `||`-chain of
`(req.method === V && Operation)` clauses whose final disjunct is the GET
case `hasPathname ? findOne : find`, **unconditionally**.  Because the
operation enum's values are non-empty strings and hence truthy, the chain
never evaluates to the trailing `|| null`: every verb other than
POST/PUT/PATCH/DELETE/HEAD falls through to the GET disjunct, and the
subsequent `if (!method) throw new InvalidHTTPMethodError(req.method)`
check is unreachable.  The `Option` result keeps the shape of the source's
`ModelInterfaceRequestMethods | null` type; `none` never occurs. -/
def resolveMethod (verb : String) (hasPathname : Bool) :
    Option ModelInterfaceRequestMethods :=
  if verb = "POST" then some .create
  else if verb = "PUT" then some .update
  else if verb = "PATCH" then some .patch
  else if verb = "DELETE" then some .delete
  else if verb = "HEAD" then some .count
  else some (if hasPathname then .findOne else .find)

/-- Lines 208–213 of the handler: choose the message-body buffer.
`req.body` is used whenever it is already a `Buffer` (any `Buffer`,
including an empty one, is a truthy object); only otherwise, and only when
`skipParseBody` is not set, is the request stream read via `getRawBody`.
A buffer of length zero is then normalised to `null`.  The second component
records whether the request stream was read (whether `getRawBody` ran) —
model instrumentation for stating stream-independence. -/
def obtainBodyBuffer (opts : Option RESTInterfaceParserOptions)
    (attachedBody : Option (List Nat)) (streamBody : List Nat) :
    Option (List Nat) × Bool :=
  let first : Option (List Nat) × Bool :=
    match attachedBody with
    | some b => (some b, false)
    | none =>
      if (opts.bind (fun o => o.skipParseBody)).getD false then (none, false)
      else (some streamBody, true)
  (match first.1 with
   | some b => if b.length = 0 then none else some b
   | none => none,
   first.2)

/-- An interface operation request, `ModelInterfaceRequest<T>`: an operation
name and a body object. -/
structure ModelInterfaceRequest where
  method : ModelInterfaceRequestMethods
  body : JSVal

/-- The body/method construction tail of `interfaceRequestFromHttpRequest`
(lines 244–275), split out so the error paths above stay textually aligned
with the source's early throws. -/
def buildInterfaceRequest (deser : List Nat → String → JSVal)
    (r : HttpRequestModel) (buf : Option (List Nat)) (targetId : String)
    (hasPathname : Bool) (method : ModelInterfaceRequestMethods) :
    ModelInterfaceRequest :=
  let step1 : ModelInterfaceRequestMethods × JSVal :=
    if hasPathname then
      let body1 := setPath (.obj []) ["query", "query", "_id"] (.str targetId)
      if method = .count then
        (.findOne,
          setPath body1 ["query", "project"]
            (.obj [("_id", .num 1), ("updatedAt", .num 1)]))
      else (method, body1)
    else (method, .obj [])
  let body2 : JSVal :=
    match buf with
    | some b =>
      match step1.2 with
      | .obj fs => spreadTop (deser b r.contentTypeFormat) fs
      | v => v
    | none => step1.2
  let body3 : JSVal :=
    r.queryArgs.foldl
      (fun body kv => setPath body ("query" :: dotPath kv.1) kv.2) body2
  { method := step1.1, body := body3 }

/-- `RESTInterfaceHandler.interfaceRequestFromHttpRequest` (part_002 lines
204–276), with the codec's `deserializeObject` passed in as `deser`
(buffer and format to object).  Steps, in source order: pick and normalise
the body buffer; extract `targetId` from the path remainder; resolve the
operation from the verb (the unreachable invalid-method throw is kept as the
`none` branch); reject operations excluded by `allowedMethods` (note a
configured *empty* list is truthy in JavaScript and excludes everything);
seed the body with `query.query._id` when a path id is present, rewriting a
path-scoped `count` to `findOne` with a `{_id, updatedAt}` projection;
spread the deserialized buffer *under* the already-set fields; finally merge
each query-string key into `body.query.<key>` with lodash `_.set` (the key
itself may contain dots and deepen the path). -/
def interfaceRequestFromHttpRequest
    (opts : Option RESTInterfaceParserOptions)
    (deser : List Nat → String → JSVal)
    (r : HttpRequestModel) : Except JSError ModelInterfaceRequest :=
  let buf : Option (List Nat) :=
    (obtainBodyBuffer opts r.attachedBody r.streamBody).1
  let targetId := targetIdOf r.rawPath
  let hasPathname : Bool := targetId ≠ ""
  match resolveMethod r.method hasPathname with
  | none => .error (InvalidHTTPMethodError r.method)
  | some method =>
    match opts.bind (fun o => o.allowedMethods) with
    | some allowed =>
      if method ∉ allowed then
        .error (HTTPMethodNotAllowedError method (some allowed))
      else
        .ok (buildInterfaceRequest deser r buf targetId hasPathname method)
    | none =>
      .ok (buildInterfaceRequest deser r buf targetId hasPathname method)

/-- A document in plain-data form, abstracted to the association of its
field names to timestamp values — the only content the response-rendering
state machine inspects (`result[lastModifiedField]`).  A field that is
present stands for a `Date`/ISO-string value, which is always truthy in
JavaScript. -/
abbrev DocVal := List (String × Int)

/-- The body of an operation response, `{result} | {results} | {count} |
{id} | {error}` (spec §3).  Each field is `Option`al because the rendering
code probes them with `typeof … !== 'undefined'`; `result = some none`
models an *explicitly null* single result. -/
structure MIRespBody where
  result : Option (Option DocVal) := none
  results : Option (List DocVal) := none
  count : Option Int := none
  id : Option String := none
  error : Option JSError := none

/-- An operation response `{method, body}` as `RESTInterfaceHandler.execute`
renders one.  `method` is `Option`al because the error path fills it from
the reverse verb map, which can miss. -/
structure MIRestResponse where
  method : Option ModelInterfaceRequestMethods := none
  body : Option MIRespBody := none

/-- The successful outcome of one dispatched Data-Interface call, as the
dispatcher classifies it (spec §4.2): a single plain document (or null), a
plain list, a count, or a created id. -/
inductive MIOutcome where
  | result (r : Option DocVal)
  | results (rs : List DocVal)
  | count (n : Int)
  | id (s : String)

/-- The response body the dispatcher builds from a successful outcome. -/
def okBody : MIOutcome → MIRespBody
  | .result r => { result := some r }
  | .results rs => { results := some rs }
  | .count n => { count := some n }
  | .id s => { id := some s }

/-- Modelled from the spec: `SimpleModelInterface.execute` lives in
`ModelInterface.ts`, which is not among the files staged under `src/`.
Reconstructed from spec §4.2 — "looks up `request.method` in the fixed
operation set, invokes the corresponding call …, and wraps the outcome as
`{method, body: {result|results|count|id}}`.  On failure, catches any
error, wraps it via `wrapError`, and returns `{method, body: {error}}`" —
and from its tests (part_001, `execute` describe block).  The underlying
Data-Interface call is the parameter `impl`: it receives the operation name
and the request body and either succeeds with an outcome or throws. -/
def simpleExecute
    (impl : ModelInterfaceRequestMethods → JSVal → Except JSError MIOutcome)
    (req : ModelInterfaceRequest) : MIRestResponse :=
  match impl req.method req.body with
  | .ok o => { method := some req.method, body := some (okBody o) }
  | .error e =>
    { method := some req.method,
      body := some { error := some (wrapError e) } }

/-- The URL of the inbound request, as `parseUrl` resolves it against the
configured base: `href = base ++ pathname ++ search`.  The 201 branch of
`execute` mutates `url.pathname += id` and then reads `url.href`. -/
structure ReqURL where
  base : String
  pathname : String
  search : String := ""

/-- The outbound HTTP message the rendering produces.  `events` records
every `res.setHeader(k, v)` call in order (model instrumentation);
`headers` is the resulting header map — `setHeader` replaces an existing
header of the same name, which `assocSet` mirrors.  `written` is the object
passed to `serializeObject` and `res.write`, `none` when no body is
written. -/
structure HttpResponse where
  statusCode : Nat
  headers : List (String × String)
  events : List (String × String)
  written : Option MIRespBody

/-- Replay a list of `setHeader` events into the final header map. -/
def applyHeaderEvents (events : List (String × String)) :
    List (String × String) :=
  events.foldl (fun m kv => assocSet m kv.1 kv.2) []

/-- The header replay of an error's `headers` map (lines 341–347):
`for (let k in error.headers) for (let header of [].concat(error.headers[k]
|| '')) res.setHeader(k, header)`.  A string value concatenates to a
one-element array; an array spreads element-wise (an empty array produces no
call); an `undefined` value falls back to `''`. -/
def flattenHeaders : List (String × HeaderVal) → List (String × String)
  | [] => []
  | (k, .one s) :: rest => (k, s) :: flattenHeaders rest
  | (k, .many l) :: rest => l.map (fun s => (k, s)) ++ flattenHeaders rest
  | (k, .undef) :: rest => (k, "") :: flattenHeaders rest

/-- JavaScript `x || d` for an optional number `x`: `undefined` and the
falsy `0` both fall back to the default. -/
def jsOrNat (x : Option Nat) (d : Nat) : Nat :=
  match x with
  | some c => if c = 0 then d else c
  | none => d

/-- JavaScript truthiness of an optional string: `undefined` and `''` are
falsy. -/
def jsTruthyStr : Option String → Bool
  | some s => s ≠ ""
  | none => false

/-- `delete resp.body?.error?.isModelInterfaceError` before serialization
(line 354): the sentinel is a marker, not wire data. -/
def stripBodySentinel (b : MIRespBody) : MIRespBody :=
  { b with
    error := b.error.map (fun e =>
      .mk e.message e.stack e.httpCode e.headers false e.innerError) }

/-- Lines 301–307: the stored last-modified timestamp, when the
conditional-GET branch applies — the response body carries a truthy
`result` and that result carries a truthy value under the configured
last-modified field (`opts?.lastModifiedField || 'updatedAt'`; only the
per-call options are consulted here).  Stored values model `Date`s, which
are truthy whenever the field is present. -/
def lastModifiedValue (callOpts : Option RESTInterfaceParserOptions)
    (resp : MIRestResponse) : Option Int :=
  match resp.body with
  | some b =>
    match b.result with
    | some (some doc) =>
      assocGet doc ((callOpts.bind (fun o => o.lastModifiedField)).getD
        "updatedAt")
    | _ => none
  | none => none

/-- Line 309: the 304 short-circuit fires when the client sent
`If-Modified-Since` and `modSince.getTime() <= lastModified.getTime()` —
the *requested* timestamp is at most the *stored* one. -/
def shortCircuits304 (callOpts : Option RESTInterfaceParserOptions)
    (ifModifiedSince : Option Int) (resp : MIRestResponse) : Bool :=
  match lastModifiedValue callOpts resp, ifModifiedSince with
  | some t, some s => decide (s ≤ t)
  | _, _ => false

/-- The response-rendering state machine of `RESTInterfaceHandler.execute`
(part_002 lines 301–361), for an already-obtained operation response
`resp`.  `verb` is `httpReq.method`; `ifModifiedSince` the parsed
`If-Modified-Since` header; `acceptMime` the canonical MIME type
`headerToSerializationFormat(httpReq, 'accept')` negotiates (the format
identifier itself only feeds the external serializer).  `toString t`
abbreviates `new Date(t).toISOString()`.  In source order: conditional-GET
check (304 or a `Last-Modified` header), then 204 for an absent/null body,
404 for an explicitly-null single result, 201 plus `Location` for a create
that returned a truthy id, and otherwise `Content-Type`, an `X-Count`
header for HEAD/count responses, the error status (`httpCode || 500`) with
the error's headers replayed or 200, and the serialized body unless the
request was a HEAD. -/
def renderResponse (callOpts : Option RESTInterfaceParserOptions)
    (verb : String) (ifModifiedSince : Option Int) (acceptMime : String)
    (url : ReqURL) (resp : MIRestResponse) : HttpResponse :=
  if shortCircuits304 callOpts ifModifiedSince resp then
    { statusCode := 304, headers := [], events := [], written := none }
  else
    let ev0 : List (String × String) :=
      match lastModifiedValue callOpts resp with
      | some t => [("Last-Modified", toString t)]
      | none => []
    match resp.body with
    | none =>
      { statusCode := 204, headers := applyHeaderEvents ev0, events := ev0,
        written := none }
    | some b =>
      if b.result = some none then
        { statusCode := 404, headers := applyHeaderEvents ev0, events := ev0,
          written := none }
      else if resp.method = some .create ∧ jsTruthyStr b.id = true then
        let ev := ev0 ++
          [("Location", url.base ++ (url.pathname ++ b.id.getD "") ++
            url.search)]
        { statusCode := 201, headers := applyHeaderEvents ev, events := ev,
          written := none }
      else
        let ev1 := ev0 ++ [("Content-Type", acceptMime)]
        let ev2 :=
          if b.result.isSome ∧ verb = "HEAD" then
            ev1 ++ [("X-Count", if b.result = some none then "0" else "1")]
          else
            match b.count with
            | some n => ev1 ++ [("X-Count", toString n)]
            | none => ev1
        let statusAndEv : Nat × List (String × String) :=
          match b.error with
          | some e => (jsOrNat e.httpCode 500, ev2 ++ flattenHeaders e.headers)
          | none => (200, ev2)
        { statusCode := statusAndEv.1,
          headers := applyHeaderEvents statusAndEv.2,
          events := statusAndEv.2,
          written := if verb = "HEAD" then none
            else some (stripBodySentinel b) }

/-- JavaScript default-parameter fallback for
`interfaceRequestFromHttpRequest(req, opts = this.options.parseOptions)`
as called from `execute(httpReq, res, opts?)`: an `undefined` per-call
`opts` falls back to the handler's configured parse options. -/
def effectiveParseOptions
    (handlerOpts callOpts : Option RESTInterfaceParserOptions) :
    Option RESTInterfaceParserOptions :=
  match callOpts with
  | some o => some o
  | none => handlerOpts

/-- `RESTInterfaceHandler.execute` end to end (part_002 lines 283–366):
build the operation request (per-call options fall back to the handler's
`options.parseOptions` through the default parameter), dispatch it through
`SimpleModelInterface.execute` (the parameter `dispatcher`), or — when
request construction threw — synthesize a response whose method reverse-maps
the verb and whose body carries the wrapped error (the source also sets a
top-level `id: null` on that synthesized object, which nothing reads);
finally render.  The conditional-GET options are read from the per-call
options only, exactly as the source does at line 301. -/
def RESTexecute (handlerOpts callOpts : Option RESTInterfaceParserOptions)
    (deser : List Nat → String → JSVal)
    (dispatcher : ModelInterfaceRequest → MIRestResponse)
    (r : HttpRequestModel) (ifModifiedSince : Option Int)
    (acceptMime : String) (url : ReqURL) : HttpResponse :=
  let resp : MIRestResponse :=
    match interfaceRequestFromHttpRequest
      (effectiveParseOptions handlerOpts callOpts) deser r with
    | .error err =>
      { method := httpMethodToOperation r.method,
        body := some { error := some (wrapError err) } }
    | .ok ir => dispatcher ir
  renderResponse callOpts r.method ifModifiedSince acceptMime url resp

/-- Modelled from the spec: the own property names of
`SimpleModelInterface.prototype`, which `RPCInterface` enumerates with
`Object.getOwnPropertyNames`.  `ModelInterface.ts` is not staged under
`src/`; spec §4.2 lists the public operations
find/findOne/findById/count/create/update/patch/delete plus the single
routing entry point `execute`, and `constructor` is an own property of
every JavaScript prototype. -/
def SimpleModelInterfacePrototypeMembers : List String :=
  [ "constructor", "find", "findOne", "findById", "count", "create",
    "update", "patch", "delete", "execute" ]

/-- `RPCInterface.rpcInterfaceMethodPrefix`:
`${this.methodPrefix ? this.methodPrefix : ''}${modelName}:` — a missing
(or empty, hence falsy) prefix contributes nothing. -/
def rpcInterfaceMethodPrefixOf (methodPrefix : Option String)
    (modelName : String) : String :=
  (match methodPrefix with
   | some p => if p = "" then "" else p
   | none => "") ++ modelName ++ ":"

/-- The registrations the `RPCInterface` constructor performs: for every own
property of the `SimpleModelInterface` prototype except `constructor` and
`execute`, the RPC server's method table gains the key
`rpcInterfaceMethodPrefix + k` bound to the interface's member `k`
(`modelInterface[k].bind(modelInterface)` — the bound forward is modelled by
the member name it forwards to). -/
def rpcRegisteredMethods (methodPrefix : Option String)
    (modelName : String) : List (String × String) :=
  (SimpleModelInterfacePrototypeMembers.filter
    (fun k => k ≠ "constructor" && k ≠ "execute")).map
    (fun k => (rpcInterfaceMethodPrefixOf methodPrefix modelName ++ k, k))

theorem assocGet_assocSet_self {κ α : Type} [DecidableEq κ]
    (l : List (κ × α)) (k : κ) (v : α) :
    assocGet (assocSet l k v) k = some v := by
  induction l with
  | nil => simp [assocGet, assocSet]
  | cons p rest ih =>
    by_cases h : p.1 = k
    · simp [assocGet, assocSet, h]
    · simp [assocGet, assocSet, h, ih]

theorem assocGet_assocSet_ne {κ α : Type} [DecidableEq κ]
    (l : List (κ × α)) (k k2 : κ) (v : α) (h : k ≠ k2) :
    assocGet (assocSet l k v) k2 = assocGet l k2 := by
  induction l with
  | nil => simp [assocGet, assocSet, h]
  | cons p rest ih =>
    by_cases hp : p.1 = k
    · simp [assocGet, assocSet, hp, h]
    · simp only [assocSet, if_neg hp, assocGet]
      by_cases hp2 : p.1 = k2 <;> simp [hp2, ih]

theorem assocGet_append {κ α : Type} [DecidableEq κ]
    (l1 l2 : List (κ × α)) (k : κ) :
    assocGet (l1 ++ l2) k =
      match assocGet l1 k with
      | some v => some v
      | none => assocGet l2 k := by
  induction l1 with
  | nil => simp [assocGet]
  | cons p rest ih =>
    by_cases h : p.1 = k <;> simp [assocGet, h, ih]

theorem assocGet_filter_key {κ α : Type} [DecidableEq κ]
    (l : List (κ × α)) (p : κ × α → Bool) (k : κ)
    (hp : ∀ v, p (k, v) = true) :
    assocGet (l.filter p) k = assocGet l k := by
  induction l with
  | nil => simp
  | cons q rest ih =>
    by_cases hq : q.1 = k
    · have : p q = true := by
        have := hp q.2
        rwa [show (k, q.2) = q by rw [← hq]] at this
      simp [List.filter, this, assocGet, hq]
    · by_cases hpq : p q = true <;>
        simp [List.filter, hpq, assocGet, hq, ih]

theorem assocGet_map_override (fsa fsb : List (String × JSVal)) (k : String)
    (w : JSVal) (hw : assocGet fsb k = some w) :
    assocGet (fsa.map fun p =>
      match assocGet fsb p.1 with
      | some v => (p.1, v)
      | none => p) k =
    if (assocGet fsa k).isSome then some w else none := by
  induction fsa with
  | nil => simp [assocGet]
  | cons p rest ih =>
    obtain ⟨pk, pv⟩ := p
    by_cases hp : pk = k
    · subst hp
      rcases hg : assocGet fsb pk with _ | v
      · rw [hg] at hw
        exact absurd hw (by simp)
      · rw [hg] at hw
        injection hw with hvw
        simp [assocGet, hg, hvw, Option.isSome]
    · rcases hg : assocGet fsb pk with _ | v <;>
        simp [assocGet, hp, hg, ih]

theorem assocGet_spreadFields (fsa fsb : List (String × JSVal)) (k : String)
    (w : JSVal) (hw : assocGet fsb k = some w) :
    assocGet (spreadFields fsa fsb) k = some w := by
  unfold spreadFields
  rw [assocGet_append, assocGet_map_override fsa fsb k w hw]
  rcases hA : assocGet fsa k with _ | v
  · simp only [hA, Option.isSome_none, Bool.false_eq_true, if_false]
    rw [assocGet_filter_key]
    · exact hw
    · intro v
      simp [hA]
  · simp [hA, Option.isSome]

theorem getPath_spreadTop (a : JSVal) (fsb : List (String × JSVal))
    (k : String) (p : List String) (q : JSVal)
    (h : assocGet fsb k = some q) :
    getPath (spreadTop a fsb) (k :: p) = getPath q p := by
  rcases a with _ | b | n | s | xs | fsa <;>
    simp [spreadTop, getPath, assocGet_spreadFields _ fsb k q h]

theorem getPath_append (v : JSVal) (p q : List String) :
    getPath v (p ++ q) =
      match getPath v p with
      | some w => getPath w q
      | none => none := by
  induction p generalizing v with
  | nil => simp [getPath]
  | cons k rest ih =>
    rcases v with _ | b | n | s | xs | fs <;>
      simp only [List.cons_append, getPath]
    rcases assocGet fs k with _ | child <;> simp [ih]

theorem splitChar_ne_nil (sep : Char) (cs : List Char) :
    splitChar sep cs ≠ [] := by
  cases cs with
  | nil => simp [splitChar]
  | cons c rest =>
    unfold splitChar
    by_cases h : c = sep
    · simp [h]
    · simp only [h, if_false]
      rcases splitChar sep rest with _ | ⟨hh, tt⟩ <;> simp

theorem dotPath_ne_nil (k : String) : dotPath k ≠ [] := by
  unfold dotPath
  simp [splitChar_ne_nil]

theorem setPath_step_preserves (body : JSVal) (k1 : String)
    (segs : List String) (v : JSVal) (sub : String) (h : k1 ≠ sub) :
    getPath (setPath body ("query" :: k1 :: segs) v) ["query", sub] =
      getPath body ["query", sub] := by
  rcases body with _ | b | n | s | xs | fs <;>
    simp only [setPath, getPath]
  rw [assocGet_assocSet_self]
  rcases hq : assocGet fs "query" with _ | child
  · cases segs <;>
      simp [setPath, getPath, assocGet, h, assocGet_assocSet_ne _ _ _ _ h]
  · rcases child with _ | cb | cn | cs' | cxs | cfs <;>
      cases segs <;>
        simp [setPath, getPath, assocGet, h,
          assocGet_assocSet_ne _ _ _ _ h]

theorem foldl_qs_preserves (qargs : List (String × JSVal)) (sub : String)
    (body : JSVal)
    (h : ∀ kv ∈ qargs, (dotPath kv.1).headD "" ≠ sub) :
    getPath (qargs.foldl
      (fun b kv => setPath b ("query" :: dotPath kv.1) kv.2) body)
      ["query", sub] =
    getPath body ["query", sub] := by
  induction qargs generalizing body with
  | nil => simp
  | cons kv rest ih =>
    simp only [List.foldl_cons]
    rw [ih _ (fun x hx => h x (List.mem_cons_of_mem _ hx))]
    rcases hd : dotPath kv.1 with _ | ⟨k1, segs⟩
    · exact absurd hd (dotPath_ne_nil kv.1)
    · have hk1 : k1 ≠ sub := by
        have := h kv (List.mem_cons_self _ _)
        rwa [hd] at this
      exact setPath_step_preserves body k1 segs kv.2 sub hk1

theorem applyHeaderEvents_append (a b : List (String × String)) :
    applyHeaderEvents (a ++ b) =
      b.foldl (fun m kv => assocSet m kv.1 kv.2) (applyHeaderEvents a) := by
  unfold applyHeaderEvents
  exact List.foldl_append _ _ a b

theorem assocGet_applyHeaderEvents_last (ev : List (String × String))
    (k v : String) :
    assocGet (applyHeaderEvents (ev ++ [(k, v)])) k = some v := by
  rw [applyHeaderEvents_append]
  simp only [List.foldl_cons, List.foldl_nil]
  exact assocGet_assocSet_self _ _ _

theorem assocGet_applyHeaderEvents_skip (ev : List (String × String))
    (k v k2 : String) (h : k ≠ k2) :
    assocGet (applyHeaderEvents (ev ++ [(k, v)])) k2 =
      assocGet (applyHeaderEvents ev) k2 := by
  rw [applyHeaderEvents_append]
  simp only [List.foldl_cons, List.foldl_nil]
  exact assocGet_assocSet_ne _ _ _ _ h

/-- C8: wrapping is idempotent — `wrapError (wrapError e) = wrapError e` for
every error `e`; the wrapped result always carries the
`isModelInterfaceError` sentinel; an error already carrying the sentinel is
returned unchanged; and wrapping any other error produces a Wrapped Error
whose `innerError` is `e` and whose `message` and `stack` are copied
through. -/
theorem spec_C8_wrapError_idempotent (e : JSError) :
    wrapError (wrapError e) = wrapError e ∧
    (wrapError e).isModelInterfaceError = true ∧
    (e.isModelInterfaceError = true → wrapError e = e) ∧
    (e.isModelInterfaceError = false →
      (wrapError e).innerError = some e ∧
      (wrapError e).message = e.message ∧
      (wrapError e).stack = e.stack) := by
  obtain ⟨m, s, c, hd, b, i⟩ := e
  cases b <;>
    simp [wrapError, JSError.isModelInterfaceError, JSError.innerError,
      JSError.message, JSError.stack]

/-- C1: for every operation request, the dispatcher's `execute` returns a
response carrying the request's own method and a body; it never propagates
an exception (`simpleExecute` is a total function into responses: a failure
of the underlying Data-Interface call surfaces as `{error: wrapError e}`),
and on success the body is exactly one of the `{result}`, `{results}`,
`{count}`, `{id}` shapes. -/
theorem spec_C1_simpleExecute_total_response
    (impl : ModelInterfaceRequestMethods → JSVal → Except JSError MIOutcome)
    (req : ModelInterfaceRequest) :
    ∃ b, simpleExecute impl req =
        { method := some req.method, body := some b } ∧
      ((∃ e, impl req.method req.body = .error e ∧
          b = { error := some (wrapError e) }) ∨
       (∃ o, impl req.method req.body = .ok o ∧ b = okBody o ∧
          b.error = none ∧
          (b.result.isSome ∨ b.results.isSome ∨ b.count.isSome ∨
            b.id.isSome))) := by
  rcases h : impl req.method req.body with e | o
  · exact ⟨{ error := some (wrapError e) },
      by simp [simpleExecute, h], Or.inl ⟨e, rfl, rfl⟩⟩
  · refine ⟨okBody o, by simp [simpleExecute, h], Or.inr ⟨o, rfl, rfl, ?_⟩⟩
    cases o <;> simp [okBody]

/-- C9: constructing an `RPCInterface` registers, for every own property `k`
of the `SimpleModelInterface` prototype except `constructor` and `execute`,
an RPC method under the key `rpcInterfaceMethodPrefix ++ k` that forwards to
the interface member `k`; and the computed prefix is the optional
`methodPrefix` (empty when absent) followed by the model name and `":"`. -/
theorem spec_C9_rpc_registration (mp : Option String) (mn k : String) :
    rpcInterfaceMethodPrefixOf mp mn = mp.getD "" ++ mn ++ ":" ∧
    ((k ∈ SimpleModelInterfacePrototypeMembers ∧ k ≠ "constructor" ∧
        k ≠ "execute") ↔
      (rpcInterfaceMethodPrefixOf mp mn ++ k, k) ∈
        rpcRegisteredMethods mp mn) := by
  constructor
  · rcases mp with _ | p
    · rfl
    · by_cases hp : p = "" <;> simp [rpcInterfaceMethodPrefixOf, Option.getD, hp]
  · unfold rpcRegisteredMethods
    simp only [List.mem_map, List.mem_filter]
    constructor
    · rintro ⟨hmem, hc, he⟩
      exact ⟨k, ⟨hmem, by simp [hc, he]⟩, rfl⟩
    · rintro ⟨x, ⟨hmem, hx⟩, heq⟩
      have hxk : x = k := congrArg Prod.snd heq
      subst hxk
      simp only [Bool.and_eq_true, decide_eq_true_eq] at hx
      exact ⟨hmem, hx.1, hx.2⟩

/-- C3: the verb→operation table — POST, PUT, PATCH, DELETE, HEAD map to
create, update, patch, delete, count, and GET maps to findOne when the path
remainder is non-empty and to find otherwise — holds; but contrary to the
claim, a verb outside that table does **not** fail with
`InvalidHTTPMethodError`: the `||`-chain's final disjunct is unconditional
and the enum's string values are truthy, so for example OPTIONS resolves
exactly like GET, and `resolveMethod` is `some` on every verb (the
invalid-method throw is dead code), so `interfaceRequestFromHttpRequest`
succeeds on an OPTIONS request. -/
theorem spec_C3_verb_mapping_fallthrough :
    (∀ hp, resolveMethod "POST" hp = some .create) ∧
    (∀ hp, resolveMethod "PUT" hp = some .update) ∧
    (∀ hp, resolveMethod "PATCH" hp = some .patch) ∧
    (∀ hp, resolveMethod "DELETE" hp = some .delete) ∧
    (∀ hp, resolveMethod "HEAD" hp = some .count) ∧
    resolveMethod "GET" true = some .findOne ∧
    resolveMethod "GET" false = some .find ∧
    resolveMethod "OPTIONS" true = some .findOne ∧
    resolveMethod "OPTIONS" false = some .find ∧
    (∀ v hp, (resolveMethod v hp).isSome = true) ∧
    interfaceRequestFromHttpRequest none (fun _ _ => JSVal.obj [])
        { method := "OPTIONS", rawPath := "/" } =
      .ok { method := .find, body := JSVal.obj [] } := by
  refine ⟨fun hp => rfl, fun hp => rfl, fun hp => rfl, fun hp => rfl,
    fun hp => rfl, rfl, rfl, rfl, rfl, ?_, rfl⟩
  intro v hp
  unfold resolveMethod
  repeat' split
  all_goals rfl

/-- C2 counterexample: a stored timestamp of 0 is not strictly newer than a
requested `If-Modified-Since` of 5, so the claim demands a 304 — but the
code's comparison runs the other way (`modSince <= lastModified`) and the
exchange is answered 200 with a `Last-Modified` header, not 304. -/
theorem spec_C2_counterexample :
    (0 : Int) ≤ 5 ∧
    (renderResponse none "GET" (some 5) "application/json"
        { base := "http://h", pathname := "/m/" }
        { method := some .findOne,
          body := some { result := some (some [("updatedAt", 0)]) } }
      ).statusCode = 200 ∧
    (renderResponse none "GET" (some 5) "application/json"
        { base := "http://h", pathname := "/m/" }
        { method := some .findOne,
          body := some { result := some (some [("updatedAt", 0)]) } }
      ).statusCode ≠ 304 := by
  refine ⟨by decide, rfl, by decide⟩

/-- C7 counterexample: a HEAD exchange whose single result is explicitly
null is answered 404 with **no** `X-Count` header at all — the claim's
"X-Count: 0" branch is unreachable, because the null-result check runs
first. -/
theorem spec_C7_counterexample :
    (renderResponse none "HEAD" none "application/json"
        { base := "http://h", pathname := "/m/" }
        { method := some .findOne, body := some { result := some none } }
      ).statusCode = 404 ∧
    assocGet (renderResponse none "HEAD" none "application/json"
        { base := "http://h", pathname := "/m/" }
        { method := some .findOne, body := some { result := some none } }
      ).headers "X-Count" = none ∧
    (renderResponse none "HEAD" none "application/json"
        { base := "http://h", pathname := "/m/" }
        { method := some .findOne, body := some { result := some none } }
      ).events = [] := by
  exact ⟨rfl, rfl, rfl⟩

/-- C6 counterexample: for `GET /abc?query=5` the path remainder is `abc`,
so the claim demands `body.query.query._id = "abc"` — but the query-string
merge runs last and `_.set(body, 'query.query', 5)` replaces the whole
`query.query` object, so the constructed request has no
`body.query.query._id` at all. -/
theorem spec_C6_counterexample :
    targetIdOf "/abc?query=5" = "abc" ∧
    interfaceRequestFromHttpRequest none (fun _ _ => JSVal.obj [])
        { method := "GET", rawPath := "/abc?query=5",
          queryArgs := [("query", JSVal.num 5)] } =
      .ok { method := .findOne,
            body := JSVal.obj
              [("query", JSVal.obj [("query", JSVal.num 5)])] } ∧
    (match interfaceRequestFromHttpRequest none (fun _ _ => JSVal.obj [])
        { method := "GET", rawPath := "/abc?query=5",
          queryArgs := [("query", JSVal.num 5)] } with
     | .ok ir => getPath ir.body ["query", "query", "_id"] = none
     | .error _ => False) := by
  exact ⟨rfl, rfl, rfl⟩

/-- C10: when `req.body` is already a `Buffer`, request construction uses it
and never reads the request stream (even with `skipParseBody` unset); and a
zero-length buffer — attached or streamed — behaves exactly like an absent
body: the deserializer is never consulted and nothing is merged into the
operation request (the whole construction is unchanged). -/
theorem spec_C10_body_buffer (opts : Option RESTInterfaceParserOptions)
    (s b : List Nat) (d1 d2 : List Nat → String → JSVal)
    (r : HttpRequestModel) :
    (obtainBodyBuffer opts (some b) s).2 = false ∧
    (b ≠ [] → (obtainBodyBuffer opts (some b) s).1 = some b) ∧
    ((obtainBodyBuffer opts r.attachedBody r.streamBody).1 = none →
      interfaceRequestFromHttpRequest opts d1 r =
        interfaceRequestFromHttpRequest opts d2 r) ∧
    (r.attachedBody = some [] →
      interfaceRequestFromHttpRequest opts d1 r =
        interfaceRequestFromHttpRequest opts d1
          { r with attachedBody := none, streamBody := [] }) := by
  refine ⟨rfl, fun hb => ?_, fun h => ?_, fun h => ?_⟩
  · simp only [obtainBodyBuffer]
    rw [if_neg (by simpa using hb)]
  · simp only [interfaceRequestFromHttpRequest, h]
    rfl
  · obtain ⟨m, rp, ab, sb, qa, ct⟩ := r
    simp only at h
    subst h
    rcases hsk : (opts.bind fun o => o.skipParseBody).getD false with _ | _ <;>
      · simp only [interfaceRequestFromHttpRequest, obtainBodyBuffer, hsk,
          List.length_nil, if_true, if_false, reduceCtorEq]
        rfl

/-- C2 (amended): for every REST exchange whose operation response carries a
result containing the configured last-modified field (default `updatedAt`)
and whose HTTP request carries `If-Modified-Since`: if the **requested**
timestamp is not strictly newer than the **stored** one (requested ≤
stored), `execute` responds 304 and writes neither headers nor body;
otherwise, whenever the field is present, the stored timestamp is emitted
as a `Last-Modified` header. -/
theorem spec_C2_conditional_get_amended
    (callOpts : Option RESTInterfaceParserOptions) (verb : String)
    (ifmod : Option Int) (mime : String) (url : ReqURL)
    (resp : MIRestResponse) :
    (∀ b d t s, resp.body = some b → b.result = some (some d) →
      assocGet d ((callOpts.bind fun o => o.lastModifiedField).getD
        "updatedAt") = some t →
      ifmod = some s → s ≤ t →
      renderResponse callOpts verb ifmod mime url resp =
        { statusCode := 304, headers := [], events := [], written := none }) ∧
    (∀ b d t, resp.body = some b → b.result = some (some d) →
      assocGet d ((callOpts.bind fun o => o.lastModifiedField).getD
        "updatedAt") = some t →
      (∀ s, ifmod = some s → t < s) →
      ("Last-Modified", toString t) ∈
        (renderResponse callOpts verb ifmod mime url resp).events) := by
  constructor
  · intro b d t s hb hr ht hi hst
    have hlm : lastModifiedValue callOpts resp = some t := by
      simp [lastModifiedValue, hb, hr, ht]
    have h304 : shortCircuits304 callOpts ifmod resp = true := by
      simp [shortCircuits304, hlm, hi, hst]
    simp [renderResponse, h304]
  · intro b d t hb hr ht hlt
    have hlm : lastModifiedValue callOpts resp = some t := by
      simp [lastModifiedValue, hb, hr, ht]
    have h304 : shortCircuits304 callOpts ifmod resp = false := by
      unfold shortCircuits304
      rw [hlm]
      rcases ifmod with _ | s
      · rfl
      · have := hlt s rfl
        simp only [decide_eq_false_iff_not]
        omega
    have hrne : b.result ≠ some none := by simp [hr]
    unfold renderResponse
    rw [h304]
    simp only [Bool.false_eq_true, if_false, hlm, hb]
    rw [if_neg hrne]
    by_cases hcr : resp.method = some .create ∧ jsTruthyStr b.id = true
    · simp [hcr]
    · rw [if_neg hcr]
      rcases hcnt : b.count with _ | n <;>
        rcases herr : b.error with _ | e <;>
          by_cases hhead : b.result.isSome ∧ verb = "HEAD" <;>
            simp [hhead, List.mem_append]

/-- C7 (amended): for every HEAD request, `execute` never writes a response
body; when the response body carries a truthy single result (and the
exchange is not 304-short-circuited and not a create-with-id), `X-Count` is
set to 1; when the body carries a numeric count (and no single-result
field), `X-Count` is set to that count; but a single result that is
explicitly null is answered 404 with no `X-Count` header — the claim's
"X-Count: 0" case is unreachable. -/
theorem spec_C7_head_amended (callOpts : Option RESTInterfaceParserOptions)
    (ifmod : Option Int) (mime : String) (url : ReqURL)
    (resp : MIRestResponse) :
    (renderResponse callOpts "HEAD" ifmod mime url resp).written = none ∧
    (∀ b d, resp.body = some b → b.result = some (some d) →
      shortCircuits304 callOpts ifmod resp = false →
      ¬(resp.method = some .create ∧ jsTruthyStr b.id = true) →
      ("X-Count", "1") ∈
        (renderResponse callOpts "HEAD" ifmod mime url resp).events) ∧
    (∀ b n, resp.body = some b → b.result = none → b.count = some n →
      ¬(resp.method = some .create ∧ jsTruthyStr b.id = true) →
      ("X-Count", toString n) ∈
        (renderResponse callOpts "HEAD" ifmod mime url resp).events) ∧
    (∀ b, resp.body = some b → b.result = some none →
      (renderResponse callOpts "HEAD" ifmod mime url resp).statusCode =
        404 ∧
      assocGet (renderResponse callOpts "HEAD" ifmod mime url resp).headers
        "X-Count" = none) := by
  refine ⟨?_, ?_, ?_, ?_⟩
  · unfold renderResponse
    repeat' split <;> try rfl
  · intro b d hb hr h304 hcr
    unfold renderResponse
    rw [h304]
    simp only [Bool.false_eq_true, if_false, hb]
    rw [if_neg (by simp [hr])]
    rw [if_neg hcr]
    have hcond : b.result.isSome = true ∧ ("HEAD" : String) = "HEAD" :=
      ⟨by simp [hr], rfl⟩
    rcases herr : b.error with _ | e <;>
      simp [hcond, hr, herr, List.mem_append]
  · intro b n hb hr hcnt hcr
    have h304 : shortCircuits304 callOpts ifmod resp = false := by
      simp [shortCircuits304, lastModifiedValue, hb, hr]
    unfold renderResponse
    rw [h304]
    simp only [Bool.false_eq_true, if_false, hb]
    rw [if_neg (by simp [hr])]
    rw [if_neg hcr]
    rcases herr : b.error with _ | e <;>
      simp [hr, hcnt, herr, List.mem_append, lastModifiedValue, hb]
  · intro b hb hr
    have h304 : shortCircuits304 callOpts ifmod resp = false := by
      simp [shortCircuits304, lastModifiedValue, hb, hr]
    unfold renderResponse
    rw [h304]
    simp only [Bool.false_eq_true, if_false, hb]
    rw [if_pos hr]
    simp [lastModifiedValue, hb, hr, applyHeaderEvents, assocGet]

/-- C4: the status of every exchange not short-circuited with 304 is
selected in order — 204 when the body is absent/null; 404 when the single
result is exactly null; 201 with a `Location` built by inserting the
generated id after the request URL's pathname when the method is `create`
and the body carries a (non-empty) id; otherwise the error's `httpCode`
(with JavaScript `||` defaulting, absent or 0 become 500) with the error's
headers replayed when the body carries an error, and 200 with the
content-negotiated serialized body otherwise (written unless the request
was a HEAD, with the sentinel field stripped). -/
theorem spec_C4_status_selection
    (callOpts : Option RESTInterfaceParserOptions) (verb : String)
    (ifmod : Option Int) (mime : String) (url : ReqURL)
    (resp : MIRestResponse) :
    (resp.body = none →
      (renderResponse callOpts verb ifmod mime url resp).statusCode = 204 ∧
      (renderResponse callOpts verb ifmod mime url resp).written = none) ∧
    (∀ b, resp.body = some b → b.result = some none →
      (renderResponse callOpts verb ifmod mime url resp).statusCode = 404 ∧
      (renderResponse callOpts verb ifmod mime url resp).written = none) ∧
    (∀ b s, shortCircuits304 callOpts ifmod resp = false →
      resp.body = some b → b.result ≠ some none →
      resp.method = some .create → b.id = some s → s ≠ "" →
      (renderResponse callOpts verb ifmod mime url resp).statusCode = 201 ∧
      assocGet (renderResponse callOpts verb ifmod mime url resp).headers
          "Location" =
        some (url.base ++ (url.pathname ++ s) ++ url.search) ∧
      (renderResponse callOpts verb ifmod mime url resp).written = none) ∧
    (∀ b e, shortCircuits304 callOpts ifmod resp = false →
      resp.body = some b → b.result ≠ some none →
      ¬(resp.method = some .create ∧ jsTruthyStr b.id = true) →
      b.error = some e →
      (renderResponse callOpts verb ifmod mime url resp).statusCode =
        jsOrNat e.httpCode 500 ∧
      (∃ pre, (renderResponse callOpts verb ifmod mime url resp).events =
        pre ++ flattenHeaders e.headers) ∧
      (verb ≠ "HEAD" →
        (renderResponse callOpts verb ifmod mime url resp).written =
          some (stripBodySentinel b))) ∧
    (∀ b, shortCircuits304 callOpts ifmod resp = false →
      resp.body = some b → b.result ≠ some none →
      ¬(resp.method = some .create ∧ jsTruthyStr b.id = true) →
      b.error = none →
      (renderResponse callOpts verb ifmod mime url resp).statusCode = 200 ∧
      assocGet (renderResponse callOpts verb ifmod mime url resp).headers
          "Content-Type" = some mime ∧
      (verb ≠ "HEAD" →
        (renderResponse callOpts verb ifmod mime url resp).written =
          some (stripBodySentinel b))) := by
  refine ⟨?_, ?_, ?_, ?_, ?_⟩
  · intro hb
    have h304 : shortCircuits304 callOpts ifmod resp = false := by
      simp [shortCircuits304, lastModifiedValue, hb]
    unfold renderResponse
    rw [h304]
    simp [hb]
  · intro b hb hr
    have h304 : shortCircuits304 callOpts ifmod resp = false := by
      simp [shortCircuits304, lastModifiedValue, hb, hr]
    unfold renderResponse
    rw [h304]
    simp only [Bool.false_eq_true, if_false, hb]
    rw [if_pos hr]
    exact ⟨rfl, rfl⟩
  · intro b s h304 hb hr hm hid hs
    unfold renderResponse
    rw [h304]
    simp only [Bool.false_eq_true, if_false, hb]
    rw [if_neg hr]
    rw [if_pos ⟨hm, by simp [jsTruthyStr, hid, hs]⟩]
    refine ⟨rfl, ?_, rfl⟩
    rw [hid]
    exact assocGet_applyHeaderEvents_last _ _ _
  · intro b e h304 hb hr hcr herr
    unfold renderResponse
    rw [h304]
    simp only [Bool.false_eq_true, if_false, hb]
    rw [if_neg hr, if_neg hcr]
    by_cases hhead : b.result.isSome = true ∧ verb = "HEAD"
    · rw [if_pos hhead]
      simp only [herr]
      exact ⟨by first | rfl | trivial, ⟨_, rfl⟩,
        fun hv => absurd hhead.2 hv⟩
    · rw [if_neg hhead]
      rcases hcnt : b.count with _ | n <;>
        · simp only [herr]
          exact ⟨by first | rfl | trivial, ⟨_, rfl⟩, fun hv => by simp [hv]⟩
  · intro b h304 hb hr hcr herr
    unfold renderResponse
    rw [h304]
    simp only [Bool.false_eq_true, if_false, hb]
    rw [if_neg hr, if_neg hcr]
    by_cases hhead : b.result.isSome = true ∧ verb = "HEAD"
    · rw [if_pos hhead]
      simp only [herr]
      refine ⟨by first | rfl | trivial, ?_,
        fun hv => absurd hhead.2 hv⟩
      rw [assocGet_applyHeaderEvents_skip _ _ _ _ (by decide)]
      exact assocGet_applyHeaderEvents_last _ _ _
    · rw [if_neg hhead]
      rcases hcnt : b.count with _ | n
      · simp only [herr]
        refine ⟨by first | rfl | trivial, ?_, fun hv => by simp [hv]⟩
        exact assocGet_applyHeaderEvents_last _ _ _
      · simp only [herr]
        refine ⟨by first | rfl | trivial, ?_, fun hv => by simp [hv]⟩
        rw [assocGet_applyHeaderEvents_skip _ _ _ _ (by decide)]
        exact assocGet_applyHeaderEvents_last _ _ _

/-- C5: when the effective parse options carry an `allowedMethods` list and
the operation resolved from verb and path is not in it, request construction
fails with a Method-Not-Allowed error whose `httpCode` is 405 and whose
`Allow` header is exactly the deduplicated HTTP verbs of the allowed
operations (via the operation→verb map, joined with spaces), and
`RESTInterfaceHandler.execute` renders the exchange as a 405 response
carrying that `Allow` header. -/
theorem spec_C5_method_not_allowed
    (handlerOpts callOpts : Option RESTInterfaceParserOptions)
    (deser : List Nat → String → JSVal)
    (dispatcher : ModelInterfaceRequest → MIRestResponse)
    (r : HttpRequestModel) (ifmod : Option Int) (mime : String)
    (url : ReqURL) (o : RESTInterfaceParserOptions)
    (allowed : List ModelInterfaceRequestMethods)
    (m : ModelInterfaceRequestMethods)
    (hEff : effectiveParseOptions handlerOpts callOpts = some o)
    (hAl : o.allowedMethods = some allowed)
    (hm : resolveMethod r.method (decide (targetIdOf r.rawPath ≠ "")) =
      some m)
    (hNot : m ∉ allowed) :
    interfaceRequestFromHttpRequest
        (effectiveParseOptions handlerOpts callOpts) deser r =
      .error (HTTPMethodNotAllowedError m (some allowed)) ∧
    (HTTPMethodNotAllowedError m (some allowed)).httpCode = some 405 ∧
    (HTTPMethodNotAllowedError m (some allowed)).headers =
      [("Allow", .one (String.intercalate " "
        (jsSetDedup (allowed.map operationToHTTPMethodGet))))] ∧
    (RESTexecute handlerOpts callOpts deser dispatcher r ifmod mime
      url).statusCode = 405 ∧
    assocGet (RESTexecute handlerOpts callOpts deser dispatcher r ifmod mime
        url).headers "Allow" =
      some (String.intercalate " "
        (jsSetDedup (allowed.map operationToHTTPMethodGet))) := by
  have hreq : interfaceRequestFromHttpRequest
      (effectiveParseOptions handlerOpts callOpts) deser r =
      .error (HTTPMethodNotAllowedError m (some allowed)) := by
    rw [hEff]
    unfold interfaceRequestFromHttpRequest
    simp only [hm, Option.bind, hAl]
    rw [if_pos hNot]
  have hkey : ∃ w, RESTexecute handlerOpts callOpts deser dispatcher r
      ifmod mime url =
      { statusCode := 405,
        headers := applyHeaderEvents ([("Content-Type", mime)] ++
          [("Allow", String.intercalate " "
            (jsSetDedup (allowed.map operationToHTTPMethodGet)))]),
        events := [("Content-Type", mime)] ++
          [("Allow", String.intercalate " "
            (jsSetDedup (allowed.map operationToHTTPMethodGet)))],
        written := w } := by
    refine ⟨if r.method = "HEAD" then none else some (stripBodySentinel { error := some (wrapError (HTTPMethodNotAllowedError m (some allowed))) }), ?_⟩
    unfold RESTexecute
    rw [hreq]
    unfold renderResponse
    simp [shortCircuits304, lastModifiedValue, jsTruthyStr, jsOrNat,
      flattenHeaders, wrapError, JSError.isModelInterfaceError,
      JSError.httpCode, JSError.headers, HTTPMethodNotAllowedError]
  obtain ⟨w, hw⟩ := hkey
  refine ⟨hreq, rfl, rfl, ?_, ?_⟩
  · rw [hw]
  · rw [hw]
    exact assocGet_applyHeaderEvents_last _ _ _

/-- C5 witness: a PATCH against a handler restricted to `create` is rejected
with 405 and `Allow: POST`. -/
theorem spec_C5_witness :
    (RESTexecute none
        (some { allowedMethods := some [ModelInterfaceRequestMethods.create] })
        (fun _ _ => JSVal.obj []) (fun _ => {})
        { method := "PATCH", rawPath := "/" } none "application/json"
        { base := "http://h", pathname := "/m/" }).statusCode = 405 ∧
    assocGet (RESTexecute none
        (some { allowedMethods := some [ModelInterfaceRequestMethods.create] })
        (fun _ _ => JSVal.obj []) (fun _ => {})
        { method := "PATCH", rawPath := "/" } none "application/json"
        { base := "http://h", pathname := "/m/" }).headers "Allow" =
      some "POST" := by
  have h := spec_C5_method_not_allowed none
    (some { allowedMethods := some [ModelInterfaceRequestMethods.create] })
    (fun _ _ => JSVal.obj []) (fun _ => {})
    { method := "PATCH", rawPath := "/" } none "application/json"
    { base := "http://h", pathname := "/m/" }
    { allowedMethods := some [ModelInterfaceRequestMethods.create] }
    [ModelInterfaceRequestMethods.create] .patch rfl rfl rfl (by decide)
  exact ⟨h.2.2.2.1, h.2.2.2.2.trans (by rfl)⟩
theorem buildInterfaceRequest_pathFields
    (deser : List Nat → String → JSVal) (r : HttpRequestModel)
    (buf : Option (List Nat)) (targetId : String)
    (m : ModelInterfaceRequestMethods)
    (hq : ∀ kv ∈ r.queryArgs, (dotPath kv.1).headD "" ≠ "query" ∧
      (dotPath kv.1).headD "" ≠ "project") :
    getPath (buildInterfaceRequest deser r buf targetId true m).body
      ["query", "query", "_id"] = some (.str targetId) ∧
    (m = .count →
      (buildInterfaceRequest deser r buf targetId true m).method =
        .findOne ∧
      getPath (buildInterfaceRequest deser r buf targetId true m).body
        ["query", "project"] =
        some (.obj [("_id", JSVal.num 1), ("updatedAt", JSVal.num 1)])) := by
  have hqQ : ∀ kv ∈ r.queryArgs, (dotPath kv.1).headD "" ≠ "query" :=
    fun kv hkv => (hq kv hkv).1
  have hqP : ∀ kv ∈ r.queryArgs, (dotPath kv.1).headD "" ≠ "project" :=
    fun kv hkv => (hq kv hkv).2
  by_cases hm : m = ModelInterfaceRequestMethods.count
  · subst hm
    cases buf with
    | none =>
      have hbody : (buildInterfaceRequest deser r none targetId true
          .count).body = r.queryArgs.foldl
          (fun body kv => setPath body ("query" :: dotPath kv.1) kv.2)
          (JSVal.obj [("query", JSVal.obj
            [("query", JSVal.obj [("_id", JSVal.str targetId)]),
             ("project", JSVal.obj
               [("_id", JSVal.num 1), ("updatedAt", JSVal.num 1)])])]) := rfl
      refine ⟨?_, fun _ => ⟨rfl, ?_⟩⟩
      · show getPath _ (["query", "query"] ++ ["_id"]) = _
        rw [hbody, getPath_append,
          (foldl_qs_preserves r.queryArgs "query" _ hqQ).trans rfl]
        rfl
      · rw [hbody]
        exact (foldl_qs_preserves r.queryArgs "project" _ hqP).trans rfl
    | some b =>
      have hbody : (buildInterfaceRequest deser r (some b) targetId true
          .count).body = r.queryArgs.foldl
          (fun body kv => setPath body ("query" :: dotPath kv.1) kv.2)
          (spreadTop (deser b r.contentTypeFormat)
            [("query", JSVal.obj
              [("query", JSVal.obj [("_id", JSVal.str targetId)]),
               ("project", JSVal.obj
                 [("_id", JSVal.num 1), ("updatedAt", JSVal.num 1)])])]) :=
        rfl
      have h2q : getPath (spreadTop (deser b r.contentTypeFormat)
          [("query", JSVal.obj
            [("query", JSVal.obj [("_id", JSVal.str targetId)]),
             ("project", JSVal.obj
               [("_id", JSVal.num 1), ("updatedAt", JSVal.num 1)])])])
          ["query", "query"] =
          some (JSVal.obj [("_id", JSVal.str targetId)]) :=
        (getPath_spreadTop (deser b r.contentTypeFormat)
          [("query", JSVal.obj
            [("query", JSVal.obj [("_id", JSVal.str targetId)]),
             ("project", JSVal.obj
               [("_id", JSVal.num 1), ("updatedAt", JSVal.num 1)])])]
          "query" ["query"] _ rfl).trans rfl
      have h2p : getPath (spreadTop (deser b r.contentTypeFormat)
          [("query", JSVal.obj
            [("query", JSVal.obj [("_id", JSVal.str targetId)]),
             ("project", JSVal.obj
               [("_id", JSVal.num 1), ("updatedAt", JSVal.num 1)])])])
          ["query", "project"] =
          some (JSVal.obj
            [("_id", JSVal.num 1), ("updatedAt", JSVal.num 1)]) :=
        (getPath_spreadTop (deser b r.contentTypeFormat)
          [("query", JSVal.obj
            [("query", JSVal.obj [("_id", JSVal.str targetId)]),
             ("project", JSVal.obj
               [("_id", JSVal.num 1), ("updatedAt", JSVal.num 1)])])]
          "query" ["project"] _ rfl).trans rfl
      refine ⟨?_, fun _ => ⟨rfl, ?_⟩⟩
      · show getPath _ (["query", "query"] ++ ["_id"]) = _
        rw [hbody, getPath_append,
          (foldl_qs_preserves r.queryArgs "query" _ hqQ).trans h2q]
        rfl
      · rw [hbody]
        exact (foldl_qs_preserves r.queryArgs "project" _ hqP).trans h2p
  · refine ⟨?_, fun hc => absurd hc hm⟩
    cases buf with
    | none =>
      show getPath ((buildInterfaceRequest deser r none targetId true
        m).body) (["query", "query"] ++ ["_id"]) = _
      have hbody : (buildInterfaceRequest deser r none targetId true
          m).body = r.queryArgs.foldl
          (fun body kv => setPath body ("query" :: dotPath kv.1) kv.2)
          (JSVal.obj [("query", JSVal.obj
            [("query", JSVal.obj [("_id", JSVal.str targetId)])])]) := by
        unfold buildInterfaceRequest
        rw [if_pos rfl, if_neg hm]
        rfl
      rw [hbody, getPath_append,
        (foldl_qs_preserves r.queryArgs "query" _ hqQ).trans rfl]
      rfl
    | some b =>
      show getPath ((buildInterfaceRequest deser r (some b) targetId true
        m).body) (["query", "query"] ++ ["_id"]) = _
      have hbody : (buildInterfaceRequest deser r (some b) targetId true
          m).body = r.queryArgs.foldl
          (fun body kv => setPath body ("query" :: dotPath kv.1) kv.2)
          (spreadTop (deser b r.contentTypeFormat)
            [("query", JSVal.obj
              [("query", JSVal.obj [("_id", JSVal.str targetId)])])]) := by
        unfold buildInterfaceRequest
        rw [if_pos rfl, if_neg hm]
        rfl
      have h2q : getPath (spreadTop (deser b r.contentTypeFormat)
          [("query", JSVal.obj
            [("query", JSVal.obj [("_id", JSVal.str targetId)])])])
          ["query", "query"] =
          some (JSVal.obj [("_id", JSVal.str targetId)]) :=
        (getPath_spreadTop (deser b r.contentTypeFormat)
          [("query", JSVal.obj
            [("query", JSVal.obj [("_id", JSVal.str targetId)])])]
          "query" ["query"] _ rfl).trans rfl
      rw [hbody, getPath_append,
        (foldl_qs_preserves r.queryArgs "query" _ hqQ).trans h2q]
      rfl

/-- C6 (amended): for every inbound HTTP request with a non-empty path
remainder **whose URL query string does not override the reserved paths**
(no key equal to `query`/`project` or starting with `query.`/`project.` —
the query-string merge runs last and would take precedence), the constructed
operation request has `body.query.query._id` equal to the path-derived
identifier; and if the resolved operation was `count` (verb HEAD), the
operation is rewritten to `findOne` and `body.query.project` is set to
`{_id: 1, updatedAt: 1}`. -/
theorem spec_C6_path_id_amended
    (opts : Option RESTInterfaceParserOptions)
    (deser : List Nat → String → JSVal) (r : HttpRequestModel)
    (ir : ModelInterfaceRequest)
    (ht : targetIdOf r.rawPath ≠ "")
    (hq : ∀ kv ∈ r.queryArgs, (dotPath kv.1).headD "" ≠ "query" ∧
      (dotPath kv.1).headD "" ≠ "project")
    (hok : interfaceRequestFromHttpRequest opts deser r = .ok ir) :
    getPath ir.body ["query", "query", "_id"] =
      some (.str (targetIdOf r.rawPath)) ∧
    (r.method = "HEAD" → ir.method = .findOne ∧
      getPath ir.body ["query", "project"] =
        some (.obj [("_id", JSVal.num 1), ("updatedAt", JSVal.num 1)])) := by
  have hb : decide (targetIdOf r.rawPath ≠ "") = true := decide_eq_true ht
  have hmain : ∃ mres, resolveMethod r.method true = some mres ∧
      buildInterfaceRequest deser r
        ((obtainBodyBuffer opts r.attachedBody r.streamBody).1)
        (targetIdOf r.rawPath) true mres = ir := by
    simp only [interfaceRequestFromHttpRequest] at hok
    rw [hb] at hok
    split at hok
    · exact absurd hok (by simp)
    · rename_i mres hres
      refine ⟨mres, hres, ?_⟩
      split at hok
      · split at hok
        · exact absurd hok (by simp)
        · injection hok
      · injection hok
  obtain ⟨mres, hres, hir⟩ := hmain
  subst hir
  obtain ⟨h1, h2⟩ := buildInterfaceRequest_pathFields deser r
    ((obtainBodyBuffer opts r.attachedBody r.streamBody).1)
    (targetIdOf r.rawPath) mres hq
  refine ⟨h1, fun hmeth => ?_⟩
  have hc : mres = ModelInterfaceRequestMethods.count := by
    rw [hmeth] at hres
    have h3 : (some ModelInterfaceRequestMethods.count :
      Option ModelInterfaceRequestMethods) = some mres := hres
    injection h3 with h4
    exact h4.symm
  exact h2 hc

/-- C6 witness: `HEAD /abc?limit=5` resolves to a `findOne` request with
`body.query.query._id = "abc"` and the minimal projection. -/
theorem spec_C6_witness :
    getPath (JSVal.obj [("query", JSVal.obj
        [("query", JSVal.obj [("_id", JSVal.str "abc")]),
         ("project", JSVal.obj
           [("_id", JSVal.num 1), ("updatedAt", JSVal.num 1)]),
         ("limit", JSVal.num 5)])])
      ["query", "query", "_id"] =
      some (.str (targetIdOf "/abc?limit=5")) ∧
    ((("HEAD" : String) = "HEAD") →
      (ModelInterfaceRequestMethods.findOne =
        ModelInterfaceRequestMethods.findOne) ∧
      getPath (JSVal.obj [("query", JSVal.obj
          [("query", JSVal.obj [("_id", JSVal.str "abc")]),
           ("project", JSVal.obj
             [("_id", JSVal.num 1), ("updatedAt", JSVal.num 1)]),
           ("limit", JSVal.num 5)])])
        ["query", "project"] =
        some (.obj [("_id", JSVal.num 1), ("updatedAt", JSVal.num 1)])) := by
  have h := spec_C6_path_id_amended none (fun _ _ => JSVal.obj [])
    { method := "HEAD", rawPath := "/abc?limit=5",
      queryArgs := [("limit", JSVal.num 5)] }
    { method := .findOne,
      body := JSVal.obj [("query", JSVal.obj
        [("query", JSVal.obj [("_id", JSVal.str "abc")]),
         ("project", JSVal.obj
           [("_id", JSVal.num 1), ("updatedAt", JSVal.num 1)]),
         ("limit", JSVal.num 5)])] }
    (by decide) (by decide) rfl
  exact ⟨h.1, fun hv => ⟨rfl, (h.2 hv).2⟩⟩
